import Mathlib

/- Shallow embedding of the trading-gym replay/execution core:
the SL/TP evaluator and replay cursor of the frontend store, the trade
routes of the backend, and the tick/price-path generator of the data
scripts.  Prices are modelled as exact rationals; JavaScript `null` /
`undefined` become `Option`; JavaScript numeric truthiness (`0` is falsy)
is modelled explicitly. -/

namespace TradingGym

/-- JavaScript `a || b` over a nullable number: `null`, `undefined` and `0`
are all falsy and fall through to `b`. -/
def jsOrQ : Option ℚ → ℚ → ℚ
  | none, b => b
  | some a, b => if a = 0 then b else a

/-- A row of the `trades` table, which is also the shape of the trade
objects held in the frontend store. -/
structure Trade where
  id : ℕ
  trade_type : String
  entry_price : ℚ
  position_size : ℚ
  stop_loss : Option ℚ
  take_profit : Option ℚ
  status : String
  exit_price : Option ℚ
  exit_reason : Option String
  exit_time : Option ℚ
  pnl : Option ℚ
deriving DecidableEq

/-- Exit reasons assigned by the SL/TP evaluator. -/
inductive ExitReason
  | stopLoss
  | takeProfit
deriving DecidableEq

/-- Display text of an exit reason, as written by `checkAndExecuteSLTP`. -/
def ExitReason.text : ExitReason → String
  | .stopLoss => "Stop Loss"
  | .takeProfit => "Take Profit"

/-- The pnl computation duplicated in the close route and in
`checkAndExecuteSLTP`: `(exitPrice - entry_price) * position_size` for
`'BUY'`, and `(entry_price - exitPrice) * position_size` for every other
trade type. -/
def computeTradePnl (trade_type : String) (entryPrice exitPrice positionSize : ℚ) : ℚ :=
  if trade_type = "BUY" then (exitPrice - entryPrice) * positionSize
  else (entryPrice - exitPrice) * positionSize

/-- `trade.stop_loss ? parseFloat(trade.stop_loss) : null`: a stored level
of `0` is falsy in JavaScript, so the evaluator reads it back as `null`. -/
def levelOf : Option ℚ → Option ℚ
  | none => none
  | some v => if v = 0 then none else some v

/-- The `shouldClose`/`exitPrice`/`exitReason` assignment of the
per-position body of `checkAndExecuteSLTP`: the stop-loss branch is
tested first and the take-profit branch only in its `else`, on both the
BUY side and the SELL (anything-else) side. -/
def sltpDecision (trade : Trade) (high low : ℚ) : Option (ℚ × ExitReason) :=
  let sl? := levelOf trade.stop_loss
  let tp? := levelOf trade.take_profit
  let slHit : Bool :=
    if trade.trade_type = "BUY" then sl?.any (fun sl => decide (low ≤ sl))
    else sl?.any (fun sl => decide (high ≥ sl))
  let tpHit : Bool :=
    if trade.trade_type = "BUY" then tp?.any (fun tp => decide (high ≥ tp))
    else tp?.any (fun tp => decide (low ≤ tp))
  if slHit then some (sl?.getD 0, ExitReason.stopLoss)
  else if tpHit then some (tp?.getD 0, ExitReason.takeProfit)
  else none

/-- The per-position body of `checkAndExecuteSLTP`: the decision above,
filtered by the trailing `if (shouldClose && exitPrice)` — a zero exit
price is falsy and aborts the close. -/
def evalTradeSLTP (trade : Trade) (high low : ℚ) : Option (ℚ × ExitReason) :=
  match sltpDecision trade high low with
  | some (p, r) => if p = 0 then none else some (p, r)
  | none => none

/-- The closed-trade record pushed by `checkAndExecuteSLTP`:
`{...trade, exit_price, pnl, status: 'closed', exit_reason, exit_time}`. -/
def closeTradeRecord (trade : Trade) (exitPrice : ℚ) (reason : ExitReason)
    (ts : Option ℚ) : Trade :=
  { trade with
      exit_price := some exitPrice,
      pnl := some (computeTradePnl trade.trade_type trade.entry_price exitPrice
        trade.position_size),
      status := "closed",
      exit_reason := some reason.text,
      exit_time := ts }

/-- The argument object of `checkAndExecuteSLTP`: a forming candle or a
plain `{high, low, close}` bundle; fields absent on the JS object are
`none`. -/
structure PriceWindow where
  timestamp : Option ℚ
  high : Option ℚ
  low : Option ℚ
  runningHigh : Option ℚ
  runningLow : Option ℚ
deriving DecidableEq

/-- A frontend tick, as mapped by the `/replay/candles-with-ticks` route
from the `candle_ticks` table. -/
structure Tick where
  tickIndex : ℕ
  timestamp : ℚ
  price : ℚ
  runningOpen : ℚ
  runningHigh : ℚ
  runningLow : ℚ
  runningClose : ℚ
  isFinalTick : Bool
deriving DecidableEq

/-- A plain OHLCV candle. -/
structure Candle where
  timestamp : ℚ
  «open» : ℚ
  high : ℚ
  low : ℚ
  close : ℚ
  volume : ℚ
deriving DecidableEq

/-- A candle bundled with its (possibly empty) tick list, as delivered to
the frontend store. -/
structure CandleWithTicks where
  timestamp : ℚ
  «open» : ℚ
  high : ℚ
  low : ℚ
  close : ℚ
  volume : ℚ
  ticks : List Tick
deriving DecidableEq

/-- The slice of the frontend store state touched by the replay/ledger
logic. -/
structure StoreState where
  balance : ℚ
  openTrades : List Trade
  closedTrades : List Trade
  candles : List Candle
  candlesWithTicks : List CandleWithTicks
  currentCandleIndex : ℕ
  currentTickIndex : ℕ
  progressiveMode : Bool
deriving DecidableEq

/-- One iteration of the `state.openTrades.forEach(...)` loop inside
`checkAndExecuteSLTP`; the accumulator is
`(updatedBalance, updatedOpenTrades, updatedClosedTrades)`. -/
def sltpStep (high low : ℚ) (ts : Option ℚ)
    (acc : ℚ × List Trade × List Trade) (trade : Trade) :
    ℚ × List Trade × List Trade :=
  match evalTradeSLTP trade high low with
  | none => acc
  | some (exitPrice, reason) =>
      (acc.1 + computeTradePnl trade.trade_type trade.entry_price exitPrice
        trade.position_size,
       acc.2.1.filter (fun t => decide (t.id ≠ trade.id)),
       acc.2.2 ++ [closeTradeRecord trade exitPrice reason ts])

/-- `checkAndExecuteSLTP(currentCandle)`: reads the window through JS
truthiness (`parseFloat(c.high || c.runningHigh || 0)`), walks the open
trades, and commits the triggered closes to balance/open/closed. -/
def checkAndExecuteSLTP (w : PriceWindow) (s : StoreState) : StoreState :=
  let high := jsOrQ w.high (jsOrQ w.runningHigh 0)
  let low := jsOrQ w.low (jsOrQ w.runningLow 0)
  let res := s.openTrades.foldl (sltpStep high low w.timestamp)
    (s.balance, s.openTrades, s.closedTrades)
  { s with balance := res.1, openTrades := res.2.1, closedTrades := res.2.2 }

/-- `addOpenTrade(trade)`: appends to the open list; no validation of size
or side happens here. -/
def addOpenTrade (trade : Trade) (s : StoreState) : StoreState :=
  { s with openTrades := s.openTrades ++ [trade] }

/-- `advanceCandle()`: `Math.min(currentCandleIndex + 1, candles.length - 1)`;
only the candle index is written, the tick index is left as it is. -/
def advanceCandle (s : StoreState) : StoreState :=
  { s with currentCandleIndex := min (s.currentCandleIndex + 1) (s.candles.length - 1) }

/-- `advanceTick()`: next tick inside the current candle if one remains,
else first tick of the next candle if one remains, else no-op. -/
def advanceTick (s : StoreState) : StoreState :=
  if s.candlesWithTicks.length = 0 then s
  else
    match s.candlesWithTicks[s.currentCandleIndex]? with
    | none => s
    | some c =>
      if 0 < c.ticks.length ∧ s.currentTickIndex < c.ticks.length - 1 then
        { s with currentTickIndex := s.currentTickIndex + 1 }
      else if s.currentCandleIndex < s.candlesWithTicks.length - 1 then
        { s with currentCandleIndex := s.currentCandleIndex + 1, currentTickIndex := 0 }
      else s

/-- The object returned by `getCurrentFormingCandle()`. -/
structure FormingCandle where
  timestamp : ℚ
  «open» : ℚ
  high : ℚ
  low : ℚ
  close : ℚ
  volume : ℚ
  isComplete : Bool
  tickProgress : Option ℚ
deriving DecidableEq

/-- `getCurrentFormingCandle()`: the full candle outside progressive mode
or without ticks, otherwise the running OHLC of the current tick. -/
def getCurrentFormingCandle (s : StoreState) : Option FormingCandle :=
  if s.candlesWithTicks.length = 0 then none
  else
    match s.candlesWithTicks[s.currentCandleIndex]? with
    | none => none
    | some c =>
      if s.progressiveMode = false ∨ c.ticks.length = 0 then
        some ⟨c.timestamp, c.«open», c.high, c.low, c.close, c.volume, true, none⟩
      else
        match c.ticks[s.currentTickIndex]? with
        | none => some ⟨c.timestamp, c.«open», c.high, c.low, c.close, c.volume, true, none⟩
        | some t =>
            some ⟨c.timestamp, t.runningOpen, t.runningHigh, t.runningLow, t.runningClose,
              c.volume, t.isFinalTick, some ((s.currentTickIndex + 1 : ℚ) / c.ticks.length)⟩

/-- `handleSkipCandle()` in `ReplayControls`: evaluate SL/TP against the
full candle's `{high, low, close}` first, then fast-forward the cursor —
through the remaining ticks in progressive mode, by one candle otherwise. -/
def handleSkipCandle (s : StoreState) : StoreState :=
  let s1 :=
    match s.candlesWithTicks[s.currentCandleIndex]? with
    | some c =>
        checkAndExecuteSLTP
          { timestamp := none, high := some c.high, low := some c.low,
            runningHigh := none, runningLow := none } s
    | none => s
  if s.progressiveMode then
    let tlen : ℤ :=
      match s.candlesWithTicks[s.currentCandleIndex]? with
      | some c => if c.ticks.length = 0 then 1 else (c.ticks.length : ℤ)
      | none => 1
    let runs := (tlen - (s.currentTickIndex : ℤ)).toNat
    advanceTick^[runs] s1
  else
    advanceCandle s1

/- ------------------------------------------------------------------
Backend data scripts: `generateDetailedPricePath` and
`generateCandleTicks`.  `Math.random()` is modelled as an explicit draw
stream `rnd : ℕ → ℚ` consumed left to right; the draw counter is
threaded through every helper exactly where the source calls
`Math.random()`. -/

/-- A swing waypoint of the price path; `price` is set only on the two
mandatory low/high waypoints. -/
structure Swing where
  position : ℚ
  isHigh : Bool
  price : Option ℚ
deriving DecidableEq

/-- Insert into a position-sorted list, after any element with an equal
position (the stable order produced by `Array.prototype.sort` with
comparator `a.position - b.position`). -/
def stableInsert (x : Swing) : List Swing → List Swing
  | [] => [x]
  | y :: ys => if x.position < y.position then x :: y :: ys else y :: stableInsert x ys

/-- Stable ascending sort by `position`. -/
def sortSwings (l : List Swing) : List Swing :=
  l.foldl (fun acc x => stableInsert x acc) []

/-- The `for (let i = 0; i < numSwings; i++)` loop: each iteration draws a
position and then an `isHigh` flag.  With draws `1, 2, …` already used for
`numSwings`, iteration `i` consumes draws `1 + 2i` and `2 + 2i`. -/
def mkRandomSwings (rnd : ℕ → ℚ) (numSwings : ℕ) : List Swing :=
  (List.range numSwings).map (fun (i : ℕ) =>
    { position := ((i : ℚ) + 1) / ((numSwings : ℚ) + 1) + (rnd (1 + 2 * i : ℕ) - 1/2) * (1/10),
      isHigh := decide (rnd (2 + 2 * i : ℕ) > 1/2),
      price := none })

/-- The two mandatory waypoints: low early / high late for a bullish
candle, mirrored otherwise; they consume the next two draws. -/
def mandatorySwings (rnd : ℕ → ℚ) (numSwings : ℕ) (isBullish : Bool)
    (high low : ℚ) : List Swing :=
  let rA := rnd (1 + 2 * numSwings)
  let rB := rnd (2 + 2 * numSwings)
  if isBullish then
    [ { position := rA * (3/10), isHigh := false, price := some low },
      { position := 7/10 + rB * (2/10), isHigh := true, price := some high } ]
  else
    [ { position := rA * (3/10), isHigh := true, price := some high },
      { position := 7/10 + rB * (2/10), isHigh := false, price := some low } ]

/-- The segment-finding `for (let j = 0; ...)` loop of the point loop:
walks the sorted swings carrying `(segmentStart, startPrice)` and breaks
at the first swing with `position <= swings[j].position`; a swing without
a `price` consumes one draw for its improvised level.  Returns
`(segmentStart, segmentEnd, startPrice, endPrice, draw counter)`;
without a break, `segmentEnd = 1` and `endPrice = close`. -/
def scanSegment (high low range close position : ℚ) (rnd : ℕ → ℚ) :
    List Swing → ℚ → ℚ → ℕ → ℚ × ℚ × ℚ × ℚ × ℕ
  | [], segStart, startP, k => (segStart, 1, startP, close, k)
  | sw :: rest, segStart, startP, k =>
      if position ≤ sw.position then
        match sw.price with
        | some p => (segStart, sw.position, startP, p, k)
        | none =>
            let e := if sw.isHigh then high - rnd k * range * (2/10)
                     else low + rnd k * range * (2/10)
            (segStart, sw.position, startP, e, k + 1)
      else
        match sw.price with
        | some p => scanSegment high low range close position rnd rest sw.position p k
        | none =>
            let sp := if sw.isHigh then high - rnd k * range * (2/10)
                      else low + rnd k * range * (2/10)
            scanSegment high low range close position rnd rest sw.position sp (k + 1)

/-- The body of one point-loop iteration up to (and including) the micro
noise: segment scan, the `position > last swing position` override,
smoothstep interpolation, noise.  Returns the un-clamped target and the
draw counter after the noise draw. -/
def rawTarget (openP high low close range : ℚ) (swings : List Swing)
    (numPoints : ℕ) (rnd : ℕ → ℚ) (i k : ℕ) (prevPrice : ℚ) : ℚ × ℕ :=
  let position := (i : ℚ) / ((numPoints : ℚ) - 1)
  match scanSegment high low range close position rnd swings 0 openP k with
  | (segStart0, segEnd0, startP0, endP0, k1) =>
    let lastPos := jsOrQ (Option.map Swing.position swings.getLast?) 0
    let segStart := if position > lastPos then lastPos else segStart0
    let segEnd := if position > lastPos then 1 else segEnd0
    let startP :=
      if position > lastPos then jsOrQ (Option.bind swings.getLast? Swing.price) prevPrice
      else startP0
    let endP := if position > lastPos then close else endP0
    let segProgress := if segStart < segEnd then (position - segStart) / (segEnd - segStart) else 0
    let smooth := segProgress * segProgress * (3 - 2 * segProgress)
    let target := startP + (endP - startP) * smooth
    (target + (rnd k1 - 1/2) * range * (2/100), k1 + 1)

/-- One point of the path: the raw target clamped back into
`[low, high]` (`Math.max(low, Math.min(high, targetPrice))`). -/
def nextPoint (openP high low close range : ℚ) (swings : List Swing)
    (numPoints : ℕ) (rnd : ℕ → ℚ) (i k : ℕ) (prevPrice : ℚ) : ℚ × ℕ :=
  let r := rawTarget openP high low close range swings numPoints rnd i k prevPrice
  (max low (min high r.1), r.2)

/-- The `for (let i = 0; i < numPoints; i++)` loop, threading the draw
counter and `prevPrice` (each emitted point becomes the next
`prevPrice`). -/
def pricePointsLoop (openP high low close range : ℚ) (swings : List Swing)
    (numPoints : ℕ) (rnd : ℕ → ℚ) : List ℕ → ℕ → ℚ → List ℚ
  | [], _, _ => []
  | i :: rest, k, prev =>
      let r := nextPoint openP high low close range swings numPoints rnd i k prev
      r.1 :: pricePointsLoop openP high low close range swings numPoints rnd rest r.2 r.1

/-- `generateDetailedPricePath(open, high, low, close, numPoints)` with an
explicit draw stream.  After the loop the first and last entries are
overwritten with `open` and `close`. -/
def generateDetailedPricePath (openP high low close : ℚ) (numPoints : ℕ)
    (rnd : ℕ → ℚ) : List ℚ :=
  let isBullish := decide (close ≥ openP)
  let range := high - low
  let numSwings : ℕ := (3 + ⌊rnd 0 * 3⌋).toNat
  let swings := sortSwings
    (mkRandomSwings rnd numSwings ++ mandatorySwings rnd numSwings isBullish high low)
  let pts := pricePointsLoop openP high low close range swings numPoints rnd
    (List.range numPoints) (3 + 2 * numSwings) openP
  (pts.set 0 openP).set (pts.length - 1) close

/-- `parseFloat(x.toFixed(8))`: rounding to 8 decimal places. -/
def round8 (q : ℚ) : ℚ := (round (q * 100000000) : ℚ) / 100000000

/-- The timeframe-to-milliseconds table of `generateCandleTicks`, with its
5-minute default. -/
def timeframeMsOf : String → ℚ
  | "5m" => 5 * 60 * 1000
  | "15m" => 15 * 60 * 1000
  | "1h" => 60 * 60 * 1000
  | "4h" => 4 * 60 * 60 * 1000
  | "1d" => 24 * 60 * 60 * 1000
  | _ => 5 * 60 * 1000

/-- A row of the `candle_ticks` table as built by `generateCandleTicks`. -/
structure BackendTick where
  timestamp : ℚ
  tick_index : ℕ
  price : ℚ
  running_open : ℚ
  running_high : ℚ
  running_low : ℚ
  running_close : ℚ
  final_open : ℚ
  final_high : ℚ
  final_low : ℚ
  final_close : ℚ
  volume : ℚ
  is_final_tick : Bool
deriving DecidableEq

/-- The tick-building loop of `generateCandleTicks`: walks the price
points carrying the running max/min (both seeded at the candle open). -/
def ticksLoop (c : Candle) (tickInterval : ℚ) (ticksPerCandle : ℕ) :
    List ℚ → ℕ → ℚ → ℚ → List BackendTick
  | [], _, _, _ => []
  | p :: rest, i, runHigh, runLow =>
      let newHigh := max runHigh p
      let newLow := min runLow p
      { timestamp := c.timestamp + (i : ℚ) * tickInterval,
        tick_index := i,
        price := round8 p,
        running_open := round8 c.«open»,
        running_high := round8 newHigh,
        running_low := round8 newLow,
        running_close := round8 p,
        final_open := round8 c.«open»,
        final_high := round8 c.high,
        final_low := round8 c.low,
        final_close := round8 c.close,
        volume := round8 (c.volume / (ticksPerCandle : ℚ)),
        is_final_tick := decide (i = ticksPerCandle - 1) }
        :: ticksLoop c tickInterval ticksPerCandle rest (i + 1) newHigh newLow

/-- `generateCandleTicks(candle, timeframeStr, ticksPerCandle)` with an
explicit draw stream for the inner path generation. -/
def generateCandleTicks (c : Candle) (timeframeStr : String)
    (ticksPerCandle : ℕ) (rnd : ℕ → ℚ) : List BackendTick :=
  let timeframeMs := timeframeMsOf timeframeStr
  let tickInterval := timeframeMs / (ticksPerCandle : ℚ)
  let pricePoints := generateDetailedPricePath c.«open» c.high c.low c.close ticksPerCandle rnd
  ticksLoop c tickInterval ticksPerCandle pricePoints 0 c.«open» c.«open»

/- ------------------------------------------------------------------
Backend trade routes (`routes/trades.js`). -/

/-- The body of a `POST /api/trades/open` request. -/
structure OpenRequest where
  sessionId : ℕ
  tradeType : String
  entryPrice : ℚ
  positionSize : ℚ
  stopLoss : Option ℚ
  takeProfit : Option ℚ
deriving DecidableEq

/-- The responses a trade route can answer with.  The routes as written
only ever produce `ok` and `notFound`; `invalidInput` is the 400-class
rejection the spec describes. -/
inductive ApiResult
  | ok (t : Trade)
  | notFound
  | invalidInput
deriving DecidableEq

/-- `POST /api/trades/open`: inserts the row unconditionally — there is no
check on `positionSize` or `tradeType` — and answers with the new row. -/
def tradesOpen (req : OpenRequest) (table : List Trade) (newId : ℕ) (now : ℚ) :
    List Trade × ApiResult :=
  let t : Trade :=
    { id := newId, trade_type := req.tradeType, entry_price := req.entryPrice,
      position_size := req.positionSize, stop_loss := req.stopLoss,
      take_profit := req.takeProfit, status := "open", exit_price := none,
      exit_reason := none, exit_time := some now, pnl := none }
  (table ++ [t], ApiResult.ok t)

/-- `PUT /api/trades/:id/close`: `SELECT * FROM trades WHERE id = $1` —
the status is not consulted — then 404 only when no row exists, else
recompute the pnl and overwrite the row. -/
def tradesClose (table : List Trade) (id : ℕ) (exitPrice : ℚ) (now : ℚ) :
    List Trade × ApiResult :=
  match table.find? (fun t => decide (t.id = id)) with
  | none => (table, ApiResult.notFound)
  | some t =>
      let pnl := computeTradePnl t.trade_type t.entry_price exitPrice t.position_size
      let upd : Trade → Trade := fun u =>
        if u.id = id then
          { u with exit_price := some exitPrice, exit_time := some now,
                   pnl := some pnl, status := "closed" }
        else u
      (table.map upd,
       ApiResult.ok { t with exit_price := some exitPrice, exit_time := some now,
                             pnl := some pnl, status := "closed" })

/- ------------------------------------------------------------------
Helper lemmas. -/

lemma levelOf_ne_zero {o : Option ℚ} {v : ℚ} (h : levelOf o = some v) : v ≠ 0 := by
  cases o with
  | none => simp [levelOf] at h
  | some a =>
      by_cases ha : a = 0
      · simp [levelOf, ha] at h
      · simp only [levelOf, if_neg ha, Option.some.injEq] at h
        exact h ▸ ha

lemma jsOrQ_self (a : ℚ) : jsOrQ (some a) (jsOrQ none 0) = a := by
  by_cases h : a = 0 <;> simp [jsOrQ, h]

lemma ifchain_eq_some {b1 b2 : Bool} {o1 o2 : Option ℚ} {p : ℚ} {r : ExitReason}
    (h : (if b1 then some (o1.getD 0, ExitReason.stopLoss)
          else if b2 then some (o2.getD 0, ExitReason.takeProfit)
          else none) = some (p, r))
    (h1 : b1 = true → o1.isSome) (h2 : b2 = true → o2.isSome) :
    (o1 = some p ∧ r = ExitReason.stopLoss) ∨
    (o2 = some p ∧ r = ExitReason.takeProfit) := by
  by_cases hb1 : b1 = true
  · rw [if_pos hb1] at h
    obtain ⟨hp, hr⟩ : o1.getD 0 = p ∧ ExitReason.stopLoss = r := by simpa using h
    obtain ⟨u, hu⟩ := Option.isSome_iff_exists.mp (h1 hb1)
    rw [hu, Option.getD_some] at hp
    exact Or.inl ⟨by rw [hu, hp], hr.symm⟩
  · rw [if_neg hb1] at h
    by_cases hb2 : b2 = true
    · rw [if_pos hb2] at h
      obtain ⟨hp, hr⟩ : o2.getD 0 = p ∧ ExitReason.takeProfit = r := by simpa using h
      obtain ⟨u, hu⟩ := Option.isSome_iff_exists.mp (h2 hb2)
      rw [hu, Option.getD_some] at hp
      exact Or.inr ⟨by rw [hu, hp], hr.symm⟩
    · rw [if_neg hb2] at h
      exact absurd h (by simp)

lemma sltpDecision_eq_some {t : Trade} {high low p : ℚ} {r : ExitReason}
    (h : sltpDecision t high low = some (p, r)) :
    (levelOf t.stop_loss = some p ∧ r = ExitReason.stopLoss) ∨
    (levelOf t.take_profit = some p ∧ r = ExitReason.takeProfit) := by
  simp only [sltpDecision] at h
  refine ifchain_eq_some h ?_ ?_
  · intro hb
    split at hb <;>
      (rcases ho : levelOf t.stop_loss with _ | u
       · rw [ho] at hb; simp at hb
       · simp [ho])
  · intro hb
    split at hb <;>
      (rcases ho : levelOf t.take_profit with _ | u
       · rw [ho] at hb; simp at hb
       · simp [ho])

lemma evalTradeSLTP_eq_some {t : Trade} {high low p : ℚ} {r : ExitReason}
    (h : evalTradeSLTP t high low = some (p, r)) :
    p ≠ 0 ∧ ((levelOf t.stop_loss = some p ∧ r = ExitReason.stopLoss) ∨
             (levelOf t.take_profit = some p ∧ r = ExitReason.takeProfit)) := by
  unfold evalTradeSLTP at h
  rcases hd : sltpDecision t high low with _ | ⟨p', r'⟩
  · rw [hd] at h; exact absurd h (by simp)
  · rw [hd] at h
    dsimp only at h
    by_cases hp0 : p' = 0
    · rw [if_pos hp0] at h; exact absurd h (by simp)
    · rw [if_neg hp0] at h
      obtain ⟨rfl, rfl⟩ : p' = p ∧ r' = r := by simpa using h
      exact ⟨hp0, sltpDecision_eq_some hd⟩

/- ------------------------------------------------------------------
Claim theorems. -/

/-- C1: for every position the SL/TP evaluator tests the stop-loss
before the take-profit; when both levels are set (as the evaluator reads
them) and the window crosses both, the position closes with reason
StopLoss at exactly the stop-loss level, never TakeProfit. -/
theorem sl_checked_before_tp (t : Trade) (sl tp high low : ℚ)
    (hsl : levelOf t.stop_loss = some sl) (htp : levelOf t.take_profit = some tp) :
    (t.trade_type = "BUY" → low ≤ sl → tp ≤ high →
        evalTradeSLTP t high low = some (sl, ExitReason.stopLoss)) ∧
    (t.trade_type = "SELL" → sl ≤ high → low ≤ tp →
        evalTradeSLTP t high low = some (sl, ExitReason.stopLoss)) := by
  have hsl0 : sl ≠ 0 := levelOf_ne_zero hsl
  constructor
  · intro hb h1 h2
    simp [evalTradeSLTP, sltpDecision, hb, hsl, htp, h1, hsl0]
  · intro hb h1 h2
    have hb' : t.trade_type ≠ "BUY" := by rw [hb]; decide
    simp [evalTradeSLTP, sltpDecision, hb', hsl, htp, h1, hsl0, ge_iff_le]

/-- A BUY position with both levels set, used to instantiate C1. -/
def buyBothLevels : Trade :=
  ⟨7, "BUY", 50000, 1/10, some 49000, some 52000, "open", none, none, none, none⟩

/-- C1 witness: the spec's own numeric example — BUY, stopLoss 49000,
takeProfit 52000, window `{high: 53000, low: 48000}` crossing both. -/
theorem sl_checked_before_tp_witness :
    levelOf buyBothLevels.stop_loss = some 49000 ∧
    levelOf buyBothLevels.take_profit = some 52000 ∧
    evalTradeSLTP buyBothLevels 53000 48000 = some (49000, ExitReason.stopLoss) :=
  ⟨by decide, by decide,
    (sl_checked_before_tp buyBothLevels 49000 52000 53000 48000
      (by decide) (by decide)).1 rfl (by norm_num) (by norm_num)⟩

/-- C4: every close — the route's manual close and the evaluator's
auto-close share this formula — realizes `(exit - entry) * size` for BUY
and `(entry - exit) * size` for SELL, fee-free; the two sides have equal
magnitude and opposite sign for identical entry/exit/size. -/
theorem pnl_formula_exact :
    ∀ e x sz : ℚ,
      computeTradePnl "BUY" e x sz = (x - e) * sz ∧
      computeTradePnl "SELL" e x sz = (e - x) * sz ∧
      computeTradePnl "SELL" e x sz = -(computeTradePnl "BUY" e x sz) ∧
      ∀ (t : Trade) (p : ℚ) (r : ExitReason) (ts : Option ℚ),
        (closeTradeRecord t p r ts).pnl =
          some (computeTradePnl t.trade_type t.entry_price p t.position_size) := by
  intro e x sz
  have hne : ("SELL" : String) ≠ "BUY" := by decide
  have h1 : computeTradePnl "BUY" e x sz = (x - e) * sz := by
    simp [computeTradePnl]
  have h2 : computeTradePnl "SELL" e x sz = (e - x) * sz := by
    simp [computeTradePnl, hne]
  exact ⟨h1, h2, by rw [h1, h2]; ring, fun t p r ts => rfl⟩

/-- A trade row that already sits closed in the table. -/
def closedRow : Trade :=
  ⟨1, "BUY", 50000, 1/10, none, none, "closed", some 51000, some "Manual", some 0, some 100⟩

/-- The row the close route writes back when re-closing `closedRow`. -/
def closedRowUpdated : Trade :=
  { closedRow with
    exit_price := some 52000, exit_time := some 5,
    pnl := some (computeTradePnl closedRow.trade_type closedRow.entry_price 52000
      closedRow.position_size),
    status := "closed" }

/-- C7 counterexample: closing id 1 when the only row with that id is
already closed is not rejected with NotFound — the route looks the row up
by id alone, recomputes the pnl and overwrites the row, answering ok. -/
theorem close_closed_trade_cex :
    closedRow.status = "closed" ∧
    (tradesClose [closedRow] 1 52000 5).2 ≠ ApiResult.notFound ∧
    (tradesClose [closedRow] 1 52000 5).1 ≠ [closedRow] := by
  refine ⟨rfl, ?_, ?_⟩
  · intro hcontra
    have hstep : (tradesClose [closedRow] 1 52000 5).2 = ApiResult.ok closedRowUpdated := rfl
    exact ApiResult.noConfusion (hstep ▸ hcontra)
  · intro heq
    have hp : some (52000 : ℚ) = some (51000 : ℚ) :=
      congrArg (fun l => (l.headD closedRow).exit_price) heq
    exact absurd (Option.some.inj hp) (by norm_num)

/-- C7 (amended): the close route fails with NotFound exactly when no row
with the given id exists at all — open or closed — and in that case the
table is unchanged; an existing-but-already-closed row is closed again,
not rejected. -/
theorem close_notfound_iff_absent (table : List Trade) (id : ℕ) (exitPrice now : ℚ) :
    ((tradesClose table id exitPrice now).2 = ApiResult.notFound ↔ ∀ t ∈ table, t.id ≠ id) ∧
    ((∀ t ∈ table, t.id ≠ id) → (tradesClose table id exitPrice now).1 = table) := by
  have hiff : table.find? (fun t => decide (t.id = id)) = none ↔ ∀ t ∈ table, t.id ≠ id := by
    rw [List.find?_eq_none]; simp
  constructor
  · rw [← hiff]
    rcases hf : table.find? (fun t => decide (t.id = id)) with _ | t <;>
      simp [tradesClose, hf]
  · intro h
    simp [tradesClose, hiff.mpr h]

/-- C7 witness: an empty table has no row with id 1, so the close leaves
it unchanged. -/
theorem close_notfound_iff_absent_witness :
    (∀ t ∈ ([] : List Trade), t.id ≠ 1) ∧ (tradesClose [] 1 52000 5).1 = [] :=
  ⟨by simp, (close_notfound_iff_absent [] 1 52000 5).2 (by simp)⟩

/-- A request with a non-positive size and a malformed side. -/
def badOpenReq : OpenRequest := ⟨1, "HOLD", 50000, -1, none, none⟩

/-- The row the open route inserts for `badOpenReq`. -/
def badOpenRow : Trade :=
  ⟨1, "HOLD", 50000, -1, none, none, "open", none, none, some 0, none⟩

/-- C8 counterexample: the open route accepts size `-1` and side
`"HOLD"` — it answers ok and inserts the row, refuting the claim that
such input fails with InvalidInput before mutating the ledger. -/
theorem open_no_validation_cex :
    badOpenReq.positionSize ≤ 0 ∧ badOpenReq.tradeType ≠ "BUY" ∧
    badOpenReq.tradeType ≠ "SELL" ∧
    (tradesOpen badOpenReq [] 1 0).2 = ApiResult.ok badOpenRow ∧
    (tradesOpen badOpenReq [] 1 0).1 = [badOpenRow] := by
  refine ⟨by decide, by decide, by decide, rfl, rfl⟩

/-- C8 (amended): the open operation performs no input validation — every
request, whatever its size or side, is answered ok and appends exactly
one row; the frontend `addOpenTrade` likewise appends unconditionally. -/
theorem open_always_inserts :
    ∀ (req : OpenRequest) (table : List Trade) (newId : ℕ) (now : ℚ)
      (trade : Trade) (s : StoreState),
      (tradesOpen req table newId now).2 ≠ ApiResult.invalidInput ∧
      (tradesOpen req table newId now).1.length = table.length + 1 ∧
      (addOpenTrade trade s).openTrades = s.openTrades ++ [trade] := by
  intro req table newId now trade s
  exact ⟨by simp [tradesOpen], by simp [tradesOpen], rfl⟩

/-- A candle for populating demo states. -/
def demoCandleA : Candle := ⟨0, 1, 2, 1, 2, 0⟩

/-- An Instant-mode store state mid-stream with a nonzero tick index. -/
def instantState : StoreState :=
  { balance := 10000, openTrades := [], closedTrades := [],
    candles := [demoCandleA, demoCandleA, demoCandleA], candlesWithTicks := [],
    currentCandleIndex := 0, currentTickIndex := 5, progressiveMode := false }

/-- C9 counterexample: `advanceCandle` on a state with tick index 5 moves
the candle index to 1 but leaves the tick index at 5 — the cursor is not
moved to `(candleIndex+1, 0)` as the claim states. -/
theorem advance_candle_keeps_tick_cex :
    (advanceCandle instantState).currentCandleIndex = 1 ∧
    (advanceCandle instantState).currentTickIndex = 5 ∧
    (advanceCandle instantState).currentTickIndex ≠ 0 := by
  refine ⟨by decide, by decide, by decide⟩

/-- C9 (amended): in Instant mode every advance sets the candle index to
`min (candleIndex + 1) (candles.length - 1)` — an increment clamped so it
never exceeds the last candle's index — and leaves the tick index
untouched (Instant mode ignores it). -/
theorem advance_candle_clamped (s : StoreState) (h : s.candles ≠ []) :
    (advanceCandle s).currentCandleIndex
        = min (s.currentCandleIndex + 1) (s.candles.length - 1) ∧
    (advanceCandle s).currentTickIndex = s.currentTickIndex ∧
    (advanceCandle s).currentCandleIndex ≤ s.candles.length - 1 :=
  ⟨rfl, rfl, min_le_right _ _⟩

/-- C9 witness: the amended statement evaluated on `instantState`. -/
theorem advance_candle_clamped_witness :
    instantState.candles ≠ [] ∧
    ((advanceCandle instantState).currentCandleIndex
        = min (instantState.currentCandleIndex + 1) (instantState.candles.length - 1) ∧
     (advanceCandle instantState).currentTickIndex = instantState.currentTickIndex ∧
     (advanceCandle instantState).currentCandleIndex ≤ instantState.candles.length - 1) :=
  ⟨by decide, advance_candle_clamped instantState (by decide)⟩

/-- C10: a stop-loss or take-profit level stored as 0 is read back
through JS truthiness as null, so the evaluator never auto-closes at that
level: with `stop_loss = 0` no close carries reason StopLoss, with
`take_profit = 0` none carries TakeProfit, and no close ever happens at
price 0 at all. -/
theorem zero_level_treated_absent (t : Trade) (high low : ℚ) :
    (t.stop_loss = some 0 → ∀ p, evalTradeSLTP t high low ≠ some (p, ExitReason.stopLoss)) ∧
    (t.take_profit = some 0 → ∀ p, evalTradeSLTP t high low ≠ some (p, ExitReason.takeProfit)) ∧
    (∀ r, evalTradeSLTP t high low ≠ some (0, r)) := by
  refine ⟨?_, ?_, ?_⟩
  · intro h p heval
    obtain ⟨-, hcase⟩ := evalTradeSLTP_eq_some heval
    rcases hcase with ⟨hv, -⟩ | ⟨-, hr⟩
    · rw [show levelOf t.stop_loss = none from by simp [h, levelOf]] at hv
      exact Option.noConfusion hv
    · exact ExitReason.noConfusion hr
  · intro h p heval
    obtain ⟨-, hcase⟩ := evalTradeSLTP_eq_some heval
    rcases hcase with ⟨-, hr⟩ | ⟨hv, -⟩
    · exact ExitReason.noConfusion hr
    · rw [show levelOf t.take_profit = none from by simp [h, levelOf]] at hv
      exact Option.noConfusion hv
  · intro r heval
    exact (evalTradeSLTP_eq_some heval).1 rfl

/-- A BUY position whose stored stop-loss level is 0. -/
def zeroStopTrade : Trade :=
  ⟨3, "BUY", 50000, 1/10, some 0, some 0, "open", none, none, none, none⟩

/-- C10 witness: a window spanning any BUY stop at or above 0 still never
closes the zero-level position with reason StopLoss or TakeProfit. -/
theorem zero_level_treated_absent_witness :
    evalTradeSLTP zeroStopTrade 60000 (-1) ≠ some (0, ExitReason.stopLoss) ∧
    evalTradeSLTP zeroStopTrade 60000 (-1) ≠ some (0, ExitReason.takeProfit) :=
  ⟨(zero_level_treated_absent zeroStopTrade 60000 (-1)).1 rfl 0,
   (zero_level_treated_absent zeroStopTrade 60000 (-1)).2.1 rfl 0⟩

/- ------------------------------------------------------------------
Price-path lemmas (C3). -/

lemma pricePointsLoop_length (openP high low close range : ℚ) (swings : List Swing)
    (numPoints : ℕ) (rnd : ℕ → ℚ) :
    ∀ (idxs : List ℕ) (k : ℕ) (prev : ℚ),
      (pricePointsLoop openP high low close range swings numPoints rnd idxs k prev).length
        = idxs.length := by
  intro idxs
  induction idxs with
  | nil => intro k prev; rfl
  | cons i rest ih =>
      intro k prev
      simp only [pricePointsLoop, List.length_cons, ih]

lemma nextPoint_bounds (openP high low close range : ℚ) (swings : List Swing)
    (numPoints : ℕ) (rnd : ℕ → ℚ) (i k : ℕ) (prev : ℚ) (hlh : low ≤ high) :
    low ≤ (nextPoint openP high low close range swings numPoints rnd i k prev).1 ∧
    (nextPoint openP high low close range swings numPoints rnd i k prev).1 ≤ high := by
  unfold nextPoint
  exact ⟨le_max_left _ _, max_le hlh (min_le_left _ _)⟩

lemma pricePointsLoop_mem (openP high low close range : ℚ) (swings : List Swing)
    (numPoints : ℕ) (rnd : ℕ → ℚ) (hlh : low ≤ high) :
    ∀ (idxs : List ℕ) (k : ℕ) (prev : ℚ) (x : ℚ),
      x ∈ pricePointsLoop openP high low close range swings numPoints rnd idxs k prev →
      low ≤ x ∧ x ≤ high := by
  intro idxs
  induction idxs with
  | nil => intro k prev x hx; simp [pricePointsLoop] at hx
  | cons i rest ih =>
      intro k prev x hx
      simp only [pricePointsLoop, List.mem_cons] at hx
      rcases hx with rfl | hx
      · exact nextPoint_bounds openP high low close range swings numPoints rnd i k prev hlh
      · exact ih _ _ _ hx

lemma setEnds_length (openP close : ℚ) (pts : List ℚ) :
    ((pts.set 0 openP).set (pts.length - 1) close).length = pts.length := by
  simp [List.length_set]

lemma setEnds_first (openP close : ℚ) (pts : List ℚ) (h2 : 2 ≤ pts.length) :
    ((pts.set 0 openP).set (pts.length - 1) close)[0]? = some openP := by
  rw [List.getElem?_set_ne (by omega)]
  exact List.getElem?_set_self (by omega)

lemma setEnds_last (openP close : ℚ) (pts : List ℚ) (h1 : 1 ≤ pts.length) :
    ((pts.set 0 openP).set (pts.length - 1) close)[pts.length - 1]? = some close := by
  exact List.getElem?_set_self (by simp [List.length_set]; omega)

lemma setEnds_mem (openP close low high : ℚ) (pts : List ℚ)
    (ho : low ≤ openP ∧ openP ≤ high) (hc : low ≤ close ∧ close ≤ high)
    (hmem : ∀ x ∈ pts, low ≤ x ∧ x ≤ high) :
    ∀ x ∈ (pts.set 0 openP).set (pts.length - 1) close, low ≤ x ∧ x ≤ high := by
  intro x hx
  rcases List.mem_or_eq_of_mem_set hx with hx1 | rfl
  · rcases List.mem_or_eq_of_mem_set hx1 with hx2 | rfl
    · exact hmem x hx2
    · exact ho
  · exact hc

lemma generatePath_parts (openP high low close : ℚ) (n : ℕ) (rnd : ℕ → ℚ)
    (hn : 2 ≤ n) (hlo1 : low ≤ openP) (hlo2 : low ≤ close)
    (hhi1 : openP ≤ high) (hhi2 : close ≤ high) :
    (generateDetailedPricePath openP high low close n rnd).length = n ∧
    (generateDetailedPricePath openP high low close n rnd)[0]? = some openP ∧
    (generateDetailedPricePath openP high low close n rnd)[n - 1]? = some close ∧
    ∀ x ∈ generateDetailedPricePath openP high low close n rnd, low ≤ x ∧ x ≤ high := by
  have hlh : low ≤ high := le_trans hlo1 hhi1
  simp only [generateDetailedPricePath]
  generalize hp : pricePointsLoop openP high low close (high - low)
      (sortSwings (mkRandomSwings rnd (3 + ⌊rnd 0 * 3⌋).toNat ++
        mandatorySwings rnd (3 + ⌊rnd 0 * 3⌋).toNat (decide (close ≥ openP)) high low))
      n rnd (List.range n) (3 + 2 * (3 + ⌊rnd 0 * 3⌋).toNat) openP = pts
  have hlen : pts.length = n := by
    rw [← hp, pricePointsLoop_length]
    exact List.length_range n
  have hmem : ∀ x ∈ pts, low ≤ x ∧ x ≤ high := by
    intro x hx
    rw [← hp] at hx
    exact pricePointsLoop_mem openP high low close (high - low) _ n rnd hlh _ _ _ x hx
  refine ⟨?_, ?_, ?_, ?_⟩
  · rw [setEnds_length, hlen]
  · exact setEnds_first openP close pts (by omega)
  · rw [← hlen]
    exact setEnds_last openP close pts (by omega)
  · exact setEnds_mem openP close low high pts ⟨hlo1, hhi1⟩ ⟨hlo2, hhi2⟩ hmem

lemma list_eq_pair {a b : ℚ} {l : List ℚ} (hlen : l.length = 2)
    (h0 : l[0]? = some a) (h1 : l[1]? = some b) : l = [a, b] := by
  match l, hlen with
  | [x, y], _ =>
      simp only [List.getElem?_cons_zero, Option.some.injEq] at h0
      simp only [List.getElem?_cons_succ, List.getElem?_cons_zero, Option.some.injEq] at h1
      rw [h0, h1]

/- ------------------------------------------------------------------
Claim C3. -/

/-- C3 counterexample: the valid input `(open, high, low, close, n) =
(1, 3, 0, 2, 2)` with `high ≠ low` and the all-zeros draw stream yields
the path `[1, 2]`, which contains neither the high `3` nor the low `0` —
the path is not guaranteed to visit the extremes. -/
theorem path_extremes_cex :
    ((2:ℕ) ≤ 2 ∧ (0:ℚ) ≤ min 1 2 ∧ max (1:ℚ) 2 ≤ 3 ∧ (3:ℚ) ≠ 0) ∧
    generateDetailedPricePath 1 3 0 2 2 (fun _ => 0) = [1, 2] ∧
    (3:ℚ) ∉ generateDetailedPricePath 1 3 0 2 2 (fun _ => 0) ∧
    (0:ℚ) ∉ generateDetailedPricePath 1 3 0 2 2 (fun _ => 0) := by
  obtain ⟨hlen, h0, h1, -⟩ := generatePath_parts 1 3 0 2 2 (fun _ => 0)
    (le_refl 2) (by norm_num) (by norm_num) (by norm_num) (by norm_num)
  have heq : generateDetailedPricePath 1 3 0 2 2 (fun _ => 0) = [1, 2] :=
    list_eq_pair hlen h0 h1
  refine ⟨⟨le_refl 2, by norm_num, by norm_num, by norm_num⟩, heq, ?_, ?_⟩ <;>
    rw [heq] <;> norm_num

/-- C3 (amended): for every valid input the interpolator returns exactly
`n` values, the first equal to open, the last equal to close, and every
value within `[low, high]`; the path merely targets the high and the low
at random interior waypoints, so the returned values need not contain
them. -/
theorem path_boundary_invariant (openP high low close : ℚ) (n : ℕ) (rnd : ℕ → ℚ)
    (hn : 2 ≤ n) (hlo : low ≤ min openP close) (hhi : max openP close ≤ high) :
    (generateDetailedPricePath openP high low close n rnd).length = n ∧
    (generateDetailedPricePath openP high low close n rnd)[0]? = some openP ∧
    (generateDetailedPricePath openP high low close n rnd)[n - 1]? = some close ∧
    ∀ x ∈ generateDetailedPricePath openP high low close n rnd, low ≤ x ∧ x ≤ high :=
  generatePath_parts openP high low close n rnd hn
    (le_trans hlo (min_le_left _ _)) (le_trans hlo (min_le_right _ _))
    (le_trans (le_max_left _ _) hhi) (le_trans (le_max_right _ _) hhi)

/-- C3 witness: the amended statement evaluated on the candle
`(open, high, low, close) = (50000, 50500, 49800, 50200)` with `n = 3`. -/
theorem path_boundary_invariant_witness :
    ((2:ℕ) ≤ 3 ∧ (49800:ℚ) ≤ min 50000 50200 ∧ max (50000:ℚ) 50200 ≤ 50500) ∧
    ((generateDetailedPricePath 50000 50500 49800 50200 3 (fun _ => 0)).length = 3 ∧
     (generateDetailedPricePath 50000 50500 49800 50200 3 (fun _ => 0))[0]? = some 50000 ∧
     (generateDetailedPricePath 50000 50500 49800 50200 3 (fun _ => 0))[3 - 1]? = some 50200 ∧
     ∀ x ∈ generateDetailedPricePath 50000 50500 49800 50200 3 (fun _ => 0),
       49800 ≤ x ∧ x ≤ 50500) :=
  ⟨⟨by norm_num, by norm_num, by norm_num⟩,
    path_boundary_invariant 50000 50500 49800 50200 3 (fun _ => 0)
      (by norm_num) (by norm_num) (by norm_num)⟩

/- ------------------------------------------------------------------
Tick-generation lemmas and claim C5. -/

lemma round8_mono {a b : ℚ} (h : a ≤ b) : round8 a ≤ round8 b := by
  unfold round8
  have h2 : round (a * 100000000) ≤ round (b * 100000000) := by
    rw [round_eq, round_eq]
    exact Int.floor_le_floor (by nlinarith)
  have h3 : ((round (a * 100000000) : ℤ) : ℚ) ≤ ((round (b * 100000000) : ℤ) : ℚ) := by
    exact_mod_cast h2
  exact (div_le_div_iff_of_pos_right (by norm_num)).mpr h3

lemma ticksLoop_mem_bounds (c : Candle) (ti : ℚ) (n : ℕ) :
    ∀ (ps : List ℚ) (i : ℕ) (rh rl : ℚ), ∀ t ∈ ticksLoop c ti n ps i rh rl,
      round8 rh ≤ t.running_high ∧ t.running_low ≤ round8 rl ∧
      t.running_open = round8 c.«open» := by
  intro ps
  induction ps with
  | nil => intro i rh rl t ht; simp [ticksLoop] at ht
  | cons p rest ih =>
      intro i rh rl t ht
      simp only [ticksLoop, List.mem_cons] at ht
      rcases ht with rfl | ht
      · exact ⟨round8_mono (le_max_left _ _), round8_mono (min_le_left _ _), rfl⟩
      · obtain ⟨h1, h2, h3⟩ := ih (i + 1) (max rh p) (min rl p) t ht
        exact ⟨le_trans (round8_mono (le_max_left _ _)) h1,
               le_trans h2 (round8_mono (min_le_left _ _)), h3⟩

lemma ticksLoop_pairwise (c : Candle) (ti : ℚ) (n : ℕ) :
    ∀ (ps : List ℚ) (i : ℕ) (rh rl : ℚ),
      List.Pairwise
        (fun a b : BackendTick =>
          a.running_high ≤ b.running_high ∧ b.running_low ≤ a.running_low)
        (ticksLoop c ti n ps i rh rl) := by
  intro ps
  induction ps with
  | nil => intro i rh rl; simp [ticksLoop]
  | cons p rest ih =>
      intro i rh rl
      simp only [ticksLoop]
      refine List.Pairwise.cons ?_ (ih (i + 1) (max rh p) (min rl p))
      intro b hb
      obtain ⟨h1, h2, -⟩ := ticksLoop_mem_bounds c ti n rest (i + 1) (max rh p) (min rl p) b hb
      exact ⟨h1, h2⟩

/-- C5: in every generated tick sequence, `running_high` is
non-decreasing and `running_low` non-increasing along the tick order, and
`running_open` is constant, equal to the candle's open (for any open
already representable in the 8 decimal places the generator rounds to). -/
theorem running_ohlc_monotone (c : Candle) (tf : String) (n : ℕ) (rnd : ℕ → ℚ)
    (h8 : round8 c.«open» = c.«open») :
    List.Pairwise
      (fun a b : BackendTick =>
        a.running_high ≤ b.running_high ∧ b.running_low ≤ a.running_low)
      (generateCandleTicks c tf n rnd) ∧
    ∀ t ∈ generateCandleTicks c tf n rnd, t.running_open = c.«open» := by
  constructor
  · simp only [generateCandleTicks]
    exact ticksLoop_pairwise c _ n _ _ _ _
  · intro t ht
    simp only [generateCandleTicks] at ht
    obtain ⟨-, -, h3⟩ := ticksLoop_mem_bounds c _ n _ _ _ _ t ht
    rw [h3, h8]

/-- The candle of the spec's end-to-end scenario, used to instantiate
several witnesses. -/
def scenarioCandle : Candle := ⟨0, 50000, 50500, 49800, 50200, 10⟩

/-- C5 witness: the running-OHLC invariants evaluated on
`scenarioCandle` with two ticks. -/
theorem running_ohlc_monotone_witness :
    round8 scenarioCandle.«open» = scenarioCandle.«open» ∧
    (List.Pairwise
      (fun a b : BackendTick =>
        a.running_high ≤ b.running_high ∧ b.running_low ≤ a.running_low)
      (generateCandleTicks scenarioCandle "1h" 2 (fun _ => 0)) ∧
     ∀ t ∈ generateCandleTicks scenarioCandle "1h" 2 (fun _ => 0),
       t.running_open = scenarioCandle.«open») :=
  ⟨by norm_num [scenarioCandle, round8, round_eq],
   running_ohlc_monotone scenarioCandle "1h" 2 (fun _ => 0)
     (by norm_num [scenarioCandle, round8, round_eq])⟩

/- ------------------------------------------------------------------
Cursor lemmas and claim C6. -/

/-- `currentCandle.ticks?.length || 0`, the tick count the cursor sees at
its current candle. -/
def tickCountAt (s : StoreState) : ℕ :=
  (Option.map (fun c => c.ticks.length) s.candlesWithTicks[s.currentCandleIndex]?).getD 0

lemma advanceTick_terminal_fixed (s : StoreState)
    (hne : s.candlesWithTicks ≠ [])
    (hidx : s.currentCandleIndex = s.candlesWithTicks.length - 1)
    (htick : tickCountAt s = 0 ∨ s.currentTickIndex = tickCountAt s - 1) :
    advanceTick s = s := by
  have hlen : s.candlesWithTicks.length ≠ 0 := by
    intro h0
    exact hne (List.length_eq_zero.mp h0)
  unfold advanceTick
  split
  · rfl
  · split
    · rfl
    · next c hc =>
        have htc : tickCountAt s = c.ticks.length := by
          simp [tickCountAt, hc]
        have h1 : ¬(0 < c.ticks.length ∧ s.currentTickIndex < c.ticks.length - 1) := by
          rcases htick with h | h <;> rw [htc] at h <;> omega
        have h2 : ¬(s.currentCandleIndex < s.candlesWithTicks.length - 1) := by omega
        rw [if_neg h1, if_neg h2]

/-- C6: at the terminal cursor position — last candle, and last tick when
ticks exist — `advanceTick` is an idempotent no-op for any number of
calls; so is `advanceCandle` once at the last candle of its list; and
completion is observable: `getCurrentFormingCandle` reports
`isComplete = true` (given the current tick, if one is selected, is
flagged final). -/
theorem advance_terminal_idempotent (s : StoreState)
    (hne : s.candlesWithTicks ≠ [])
    (hidx : s.currentCandleIndex = s.candlesWithTicks.length - 1)
    (htick : tickCountAt s = 0 ∨ s.currentTickIndex = tickCountAt s - 1) :
    (∀ k, advanceTick^[k] s = s) ∧
    (s.candles ≠ [] → s.currentCandleIndex = s.candles.length - 1 →
      ∀ k, advanceCandle^[k] s = s) ∧
    (∀ c, s.candlesWithTicks[s.currentCandleIndex]? = some c →
      Option.all (fun t => t.isFinalTick) c.ticks[s.currentTickIndex]? = true →
      ∃ f, getCurrentFormingCandle s = some f ∧ f.isComplete = true) := by
  refine ⟨?_, ?_, ?_⟩
  · intro k
    exact Function.iterate_fixed (advanceTick_terminal_fixed s hne hidx htick) k
  · intro hc hidx2 k
    apply Function.iterate_fixed
    have hlen : s.candles.length ≠ 0 := by
      intro h0
      exact hc (List.length_eq_zero.mp h0)
    have hmin : min (s.currentCandleIndex + 1) (s.candles.length - 1)
        = s.currentCandleIndex := by omega
    unfold advanceCandle
    rw [hmin]
  · intro c hc hfin
    have hlen : ¬ s.candlesWithTicks.length = 0 := by
      intro h0
      exact hne (List.length_eq_zero.mp h0)
    unfold getCurrentFormingCandle
    rw [if_neg hlen]
    split
    · next heq => rw [hc] at heq; exact Option.noConfusion heq
    · next c' heq =>
        rw [hc] at heq
        obtain rfl : c = c' := Option.some.inj heq
        split
        · exact ⟨_, rfl, rfl⟩
        · split
          · exact ⟨_, rfl, rfl⟩
          · next t heqt =>
              refine ⟨_, rfl, ?_⟩
              rw [heqt] at hfin
              simpa using hfin

/-- The two ticks of a fully-formed terminal demo candle. -/
def termTick0 : Tick := ⟨0, 0, 50000, 50000, 50000, 50000, 50000, false⟩

/-- The final tick of the terminal demo candle. -/
def termTick1 : Tick := ⟨1, 0, 50200, 50000, 50200, 50000, 50200, true⟩

/-- A single-candle tick series for the terminal-state demo. -/
def termCandleWT : CandleWithTicks := ⟨0, 50000, 50500, 49800, 50200, 10, [termTick0, termTick1]⟩

/-- A store state resting at the terminal position: last candle, final
tick, progressive mode. -/
def terminalState : StoreState :=
  { balance := 10000, openTrades := [], closedTrades := [],
    candles := [demoCandleA], candlesWithTicks := [termCandleWT],
    currentCandleIndex := 0, currentTickIndex := 1, progressiveMode := true }

/-- C6 witness: the terminal statement evaluated on `terminalState`. -/
theorem advance_terminal_idempotent_witness :
    advanceTick^[3] terminalState = terminalState ∧
    advanceCandle^[2] terminalState = terminalState ∧
    ∃ f, getCurrentFormingCandle terminalState = some f ∧ f.isComplete = true := by
  obtain ⟨h1, h2, h3⟩ := advance_terminal_idempotent terminalState
    (by decide) (by decide) (by decide)
  exact ⟨h1 3, h2 (by decide) (by decide) 2, h3 termCandleWT (by decide) (by decide)⟩

/- ------------------------------------------------------------------
SL/TP fold lemmas and claim C2. -/

lemma sltpStep_open_subset (high low : ℚ) (ts : Option ℚ)
    (acc : ℚ × List Trade × List Trade) (x : Trade) :
    (sltpStep high low ts acc x).2.1 ⊆ acc.2.1 := by
  unfold sltpStep
  split
  · exact fun a ha => ha
  · exact fun a ha => List.mem_of_mem_filter ha

lemma sltpStep_closed_mono (high low : ℚ) (ts : Option ℚ)
    (acc : ℚ × List Trade × List Trade) (x : Trade) :
    acc.2.2 ⊆ (sltpStep high low ts acc x).2.2 := by
  unfold sltpStep
  split
  · exact fun a ha => ha
  · exact List.subset_append_left _ _

lemma sltpFold_open_subset (high low : ℚ) (ts : Option ℚ) :
    ∀ (trades : List Trade) (acc : ℚ × List Trade × List Trade),
      (trades.foldl (sltpStep high low ts) acc).2.1 ⊆ acc.2.1 := by
  intro trades
  induction trades with
  | nil => intro acc a ha; exact ha
  | cons y rest ih =>
      intro acc a ha
      rw [List.foldl_cons] at ha
      exact sltpStep_open_subset high low ts acc y (ih _ ha)

lemma sltpFold_closed_mono (high low : ℚ) (ts : Option ℚ) :
    ∀ (trades : List Trade) (acc : ℚ × List Trade × List Trade),
      acc.2.2 ⊆ (trades.foldl (sltpStep high low ts) acc).2.2 := by
  intro trades
  induction trades with
  | nil => intro acc a ha; exact ha
  | cons y rest ih =>
      intro acc a ha
      rw [List.foldl_cons]
      exact ih _ (sltpStep_closed_mono high low ts acc y ha)

lemma sltpFold_removes (high low : ℚ) (ts : Option ℚ) (x : Trade)
    (eprice : ℚ) (ereason : ExitReason)
    (hev : evalTradeSLTP x high low = some (eprice, ereason)) :
    ∀ (trades : List Trade) (acc : ℚ × List Trade × List Trade), x ∈ trades →
      ∀ t ∈ (trades.foldl (sltpStep high low ts) acc).2.1, t.id ≠ x.id := by
  intro trades
  induction trades with
  | nil => intro acc hx; exact absurd hx (List.not_mem_nil x)
  | cons y rest ih =>
      intro acc hx t ht
      rw [List.foldl_cons] at ht
      rcases List.mem_cons.mp hx with rfl | hx'
      · have hsub := sltpFold_open_subset high low ts rest (sltpStep high low ts acc x) ht
        have hstep : (sltpStep high low ts acc x).2.1
            = acc.2.1.filter (fun u => decide (u.id ≠ x.id)) := by
          unfold sltpStep
          rw [hev]
        rw [hstep] at hsub
        simpa using (List.mem_filter.mp hsub).2
      · exact ih _ hx' t ht

lemma sltpFold_closes (high low : ℚ) (ts : Option ℚ) (x : Trade)
    (eprice : ℚ) (ereason : ExitReason)
    (hev : evalTradeSLTP x high low = some (eprice, ereason)) :
    ∀ (trades : List Trade) (acc : ℚ × List Trade × List Trade), x ∈ trades →
      ∃ ct ∈ (trades.foldl (sltpStep high low ts) acc).2.2,
        ct.id = x.id ∧ ct.status = "closed" := by
  intro trades
  induction trades with
  | nil => intro acc hx; exact absurd hx (List.not_mem_nil x)
  | cons y rest ih =>
      intro acc hx
      rcases List.mem_cons.mp hx with rfl | hx'
      · refine ⟨closeTradeRecord x eprice ereason ts, ?_, rfl, rfl⟩
        rw [List.foldl_cons]
        apply sltpFold_closed_mono high low ts rest (sltpStep high low ts acc x)
        have hstep : (sltpStep high low ts acc x).2.2
            = acc.2.2 ++ [closeTradeRecord x eprice ereason ts] := by
          unfold sltpStep
          rw [hev]
        rw [hstep]
        exact List.mem_append_right _ (List.mem_singleton_self _)
      · rw [List.foldl_cons]
        exact ih _ hx'

lemma evalTradeSLTP_triggers (t : Trade) (high low : ℚ) (hlow : 0 ≤ low)
    (hlvl : (∃ v, t.stop_loss = some v ∧ low < v ∧ v < high) ∨
            (∃ v, t.take_profit = some v ∧ low < v ∧ v < high)) :
    ∃ pr, evalTradeSLTP t high low = some pr := by
  have key : ∃ q r, sltpDecision t high low = some (q, r) ∧ q ≠ 0 := by
    simp only [sltpDecision]
    by_cases hslHit :
        (if t.trade_type = "BUY"
         then Option.any (fun sl => decide (low ≤ sl)) (levelOf t.stop_loss)
         else Option.any (fun sl => decide (high ≥ sl)) (levelOf t.stop_loss)) = true
    · have hsome : ∃ u, levelOf t.stop_loss = some u := by
        rcases ho : levelOf t.stop_loss with _ | u
        · rw [ho] at hslHit; simp at hslHit
        · exact ⟨u, rfl⟩
      obtain ⟨u, hu⟩ := hsome
      refine ⟨u, ExitReason.stopLoss, ?_, levelOf_ne_zero hu⟩
      rw [if_pos hslHit, hu, Option.getD_some]
    · have htpHit :
          (if t.trade_type = "BUY"
           then Option.any (fun tp => decide (high ≥ tp)) (levelOf t.take_profit)
           else Option.any (fun tp => decide (low ≤ tp)) (levelOf t.take_profit)) = true := by
        rcases hlvl with ⟨v, hv, h1, h2⟩ | ⟨v, hv, h1, h2⟩
        · exfalso
          apply hslHit
          have hv0 : v ≠ 0 := (lt_of_le_of_lt hlow h1).ne'
          have hlv : levelOf t.stop_loss = some v := by rw [hv]; simp [levelOf, hv0]
          by_cases hb : t.trade_type = "BUY"
          · rw [if_pos hb, hlv]; simp [le_of_lt h1]
          · rw [if_neg hb, hlv]; simp [ge_iff_le, le_of_lt h2]
        · have hv0 : v ≠ 0 := (lt_of_le_of_lt hlow h1).ne'
          have hlv : levelOf t.take_profit = some v := by rw [hv]; simp [levelOf, hv0]
          by_cases hb : t.trade_type = "BUY"
          · rw [if_pos hb, hlv]; simp [ge_iff_le, le_of_lt h2]
          · rw [if_neg hb, hlv]; simp [le_of_lt h1]
      have hsome : ∃ u, levelOf t.take_profit = some u := by
        rcases ho : levelOf t.take_profit with _ | u
        · rw [ho] at htpHit; simp at htpHit
        · exact ⟨u, rfl⟩
      obtain ⟨u, hu⟩ := hsome
      refine ⟨u, ExitReason.takeProfit, ?_, levelOf_ne_zero hu⟩
      rw [if_neg hslHit, if_pos htpHit, hu, Option.getD_some]
  obtain ⟨q, r, hd, hq⟩ := key
  refine ⟨(q, r), ?_⟩
  unfold evalTradeSLTP
  rw [hd]
  simp [hq]

lemma advanceTick_openTrades (s : StoreState) :
    (advanceTick s).openTrades = s.openTrades := by
  unfold advanceTick
  repeat first | rfl | split

lemma advanceTick_closedTrades (s : StoreState) :
    (advanceTick s).closedTrades = s.closedTrades := by
  unfold advanceTick
  repeat first | rfl | split

lemma iterate_advanceTick_trades (k : ℕ) (s : StoreState) :
    (advanceTick^[k] s).openTrades = s.openTrades ∧
    (advanceTick^[k] s).closedTrades = s.closedTrades := by
  induction k generalizing s with
  | zero => exact ⟨rfl, rfl⟩
  | succ k ih =>
      constructor
      · rw [Function.iterate_succ_apply, (ih (advanceTick s)).1, advanceTick_openTrades]
      · rw [Function.iterate_succ_apply, (ih (advanceTick s)).2, advanceTick_closedTrades]

/-- C2: `handleSkipCandle` evaluates SL/TP against the full candle's
high/low before fast-forwarding, so every open position whose stop-loss
or take-profit level lies strictly inside the skipped candle's
`(low, high)` range is closed during the skip — removed from the open
trades and recorded as closed. -/
theorem skip_candle_closes_inside_levels (s : StoreState) (c : CandleWithTicks) (x : Trade)
    (hc : s.candlesWithTicks[s.currentCandleIndex]? = some c)
    (hx : x ∈ s.openTrades)
    (hlow : 0 ≤ c.low)
    (hlvl : (∃ v, x.stop_loss = some v ∧ c.low < v ∧ v < c.high) ∨
            (∃ v, x.take_profit = some v ∧ c.low < v ∧ v < c.high)) :
    (∀ t ∈ (handleSkipCandle s).openTrades, t.id ≠ x.id) ∧
    (∃ ct ∈ (handleSkipCandle s).closedTrades, ct.id = x.id ∧ ct.status = "closed") := by
  obtain ⟨⟨eprice, ereason⟩, hev⟩ := evalTradeSLTP_triggers x c.high c.low hlow hlvl
  have hopen1 : ∀ t ∈ (checkAndExecuteSLTP
      ⟨none, some c.high, some c.low, none, none⟩ s).openTrades, t.id ≠ x.id := by
    intro t ht
    simp only [checkAndExecuteSLTP, jsOrQ_self] at ht
    exact sltpFold_removes c.high c.low none x eprice ereason hev s.openTrades _ hx t ht
  have hclosed1 : ∃ ct ∈ (checkAndExecuteSLTP
      ⟨none, some c.high, some c.low, none, none⟩ s).closedTrades,
      ct.id = x.id ∧ ct.status = "closed" := by
    obtain ⟨ct, hmem, hprops⟩ :=
      sltpFold_closes c.high c.low none x eprice ereason hev s.openTrades
        (s.balance, s.openTrades, s.closedTrades) hx
    refine ⟨ct, ?_, hprops⟩
    simp only [checkAndExecuteSLTP, jsOrQ_self]
    exact hmem
  have hskipO : (handleSkipCandle s).openTrades
      = (checkAndExecuteSLTP ⟨none, some c.high, some c.low, none, none⟩ s).openTrades := by
    simp only [handleSkipCandle, hc]
    split
    · exact (iterate_advanceTick_trades _ _).1
    · rfl
  have hskipC : (handleSkipCandle s).closedTrades
      = (checkAndExecuteSLTP ⟨none, some c.high, some c.low, none, none⟩ s).closedTrades := by
    simp only [handleSkipCandle, hc]
    split
    · exact (iterate_advanceTick_trades _ _).2
    · rfl
  constructor
  · intro t ht
    exact hopen1 t (hskipO ▸ ht)
  · obtain ⟨ct, hmem, hprops⟩ := hclosed1
    exact ⟨ct, hskipC ▸ hmem, hprops⟩

/-- A BUY position whose stop-loss lies strictly inside the demo
candle's range. -/
def skipTrade : Trade := ⟨11, "BUY", 50000, 1, some 49900, none, "open", none, none, none, none⟩

/-- A tickless candle for the skip demo. -/
def skipCandleWT : CandleWithTicks := ⟨0, 50000, 50500, 49800, 50200, 10, []⟩

/-- A store state about to skip `skipCandleWT` with `skipTrade` open. -/
def skipState : StoreState :=
  { balance := 10000, openTrades := [skipTrade], closedTrades := [],
    candles := [demoCandleA, demoCandleA], candlesWithTicks := [skipCandleWT, skipCandleWT],
    currentCandleIndex := 0, currentTickIndex := 0, progressiveMode := false }

/-- C2 witness: skipping the demo candle closes the position whose stop
sits strictly inside the candle's range. -/
theorem skip_candle_closes_inside_levels_witness :
    (∀ t ∈ (handleSkipCandle skipState).openTrades, t.id ≠ skipTrade.id) ∧
    (∃ ct ∈ (handleSkipCandle skipState).closedTrades,
      ct.id = skipTrade.id ∧ ct.status = "closed") :=
  skip_candle_closes_inside_levels skipState skipCandleWT skipTrade
    rfl (List.mem_singleton_self _) (by decide)
    (Or.inl ⟨49900, rfl, by decide, by decide⟩)

end TradingGym
